import Mathlib

/-!
Shallow embedding of the core of the open-ai-co-scientist repository
(hypothesis data model, population store, similarity and visualization
utilities, reference extraction, Elo tournament update) together with
theorems settling the specification claims.

Sources embedded:
* `app/models.py` — `Hypothesis.__init__`, `ResearchGoal.__init__`,
  `ContextMemory` (in-memory part; the optional database persistence is an
  external side effect and is not modelled).
* `app/utils.py` — `generate_unique_id`, `generate_visjs_data`,
  `similarity_score`.
* The tournament Elo update and the arXiv reference extraction live in
  `app/agents.py`, which is not part of the available sources; they are
  modelled from the specification (and, for the extraction patterns, from
  the inline copy of the patterns in `tests/test_agents.py`).

Numeric conventions: Python floats are idealised as exact arithmetic —
rationals (`ℚ`) where the code only adds, multiplies and compares, and
reals (`ℝ`) where the code takes powers or square roots (Elo expected
score, cosine similarity).
-/

namespace CoScientist

/-! ## Data model (`app/models.py`) -/

/-- Embeds the state of a `Hypothesis` object (`app/models.py`, class
`Hypothesis`).  `elo_score` is a Python float, idealised as a rational. -/
structure Hypothesis where
  hypothesis_id : String
  title : String
  text : String
  novelty_review : Option String
  feasibility_review : Option String
  elo_score : ℚ
  review_comments : List String
  references : List String
  is_active : Bool
  parent_ids : List String
deriving DecidableEq, Repr

/-- Embeds `Hypothesis.__init__(hypothesis_id, title, text)`: every field
other than the three arguments is set to its hard-coded initial value. -/
def Hypothesis.make (hypothesis_id title text : String) : Hypothesis :=
  { hypothesis_id := hypothesis_id
    title := title
    text := text
    novelty_review := none
    feasibility_review := none
    elo_score := 1200
    review_comments := []
    references := []
    is_active := true
    parent_ids := [] }

/-- The error class the specification says invalid `ResearchGoal`
parameters are rejected with.  The source under `app/` defines no such
class; it appears here only so that acceptance/rejection of a goal can be
stated. -/
inductive ConfigurationError where
  | invalid (msg : String)
deriving DecidableEq, Repr

/-- The fallback values that `config.get(key, default)` resolves to inside
`ResearchGoal.__init__` (`app/models.py` lines 61–66).  `config.py` is
external configuration; the hard-coded second arguments of the `get` calls
are the in-source defaults, collected in `codeDefaults` below. -/
structure ConfigDefaults where
  llm_model : String
  num_hypotheses : Int
  generation_temperature : ℚ
  reflection_temperature : ℚ
  elo_k_factor : Int
  top_k_hypotheses : Int
deriving DecidableEq, Repr

/-- The literal defaults written in `ResearchGoal.__init__`. -/
def codeDefaults : ConfigDefaults :=
  { llm_model := "google/gemini-flash-1.5"
    num_hypotheses := 3
    generation_temperature := 7/10
    reflection_temperature := 1/2
    elo_k_factor := 32
    top_k_hypotheses := 2 }

/-- Embeds the state of a `ResearchGoal` object (`app/models.py`, class
`ResearchGoal`).  `constraints` is a key→value map, modelled as an
association list; `literature_context` holds paper summaries. -/
structure ResearchGoal where
  description : String
  constraints : List (String × String)
  llm_model : String
  num_hypotheses : Int
  generation_temperature : ℚ
  reflection_temperature : ℚ
  elo_k_factor : Int
  top_k_hypotheses : Int
  literature_context : List String
deriving DecidableEq, Repr

/-- Embeds `ResearchGoal.__init__`.  Each optional argument falls back to
the configured default; `constraints` and `llm_model` use Python
truthiness (an empty dict / empty string also falls back), the numeric
parameters use `is not None`.  The constructor contains no `raise`
statement and no parameter validation, so the result is always `ok`; the
`Except` return type only exists so that acceptance can be stated. -/
def ResearchGoal.make (cfg : ConfigDefaults) (description : String)
    (constraints : Option (List (String × String)))
    (llm_model : Option String)
    (num_hypotheses : Option Int)
    (generation_temperature : Option ℚ)
    (reflection_temperature : Option ℚ)
    (elo_k_factor : Option Int)
    (top_k_hypotheses : Option Int) :
    Except ConfigurationError ResearchGoal :=
  Except.ok
    { description := description
      constraints := constraints.getD []
      llm_model :=
        match llm_model with
        | some m => if m.isEmpty then cfg.llm_model else m
        | none => cfg.llm_model
      num_hypotheses := num_hypotheses.getD cfg.num_hypotheses
      generation_temperature := generation_temperature.getD cfg.generation_temperature
      reflection_temperature := reflection_temperature.getD cfg.reflection_temperature
      elo_k_factor := elo_k_factor.getD cfg.elo_k_factor
      top_k_hypotheses := top_k_hypotheses.getD cfg.top_k_hypotheses
      literature_context := [] }

/-- One record of `ContextMemory.tournament_results`
(`app/models.py`, `save_tournament_result`). -/
structure MatchRecord where
  hypothesis1_id : String
  hypothesis2_id : String
  winner_id : String
  old_elo1 : ℚ
  old_elo2 : ℚ
  new_elo1 : ℚ
  new_elo2 : ℚ
  iteration : Nat
deriving DecidableEq, Repr

/-- One record of `ContextMemory.meta_review_feedback`. -/
structure MetaReview where
  critique : String
  suggested_next_steps : List String
  iteration : Nat
deriving DecidableEq, Repr

/-- Embeds the in-memory state of `ContextMemory` (`app/models.py`).
`hypotheses` is a Python dict keyed by hypothesis id; Python dicts are
insertion-ordered, so it is modelled as an association list where an
update in place keeps the key's original position.  The optional database
mirror (`use_database`) is an external persistence side effect and is not
modelled. -/
structure ContextMemory where
  hypotheses : List (String × Hypothesis)
  tournament_results : List MatchRecord
  meta_review_feedback : List MetaReview
  iteration_number : Nat
deriving DecidableEq, Repr

/-- A fresh `ContextMemory()`: every collection empty, iteration 0. -/
def ContextMemory.empty : ContextMemory :=
  { hypotheses := []
    tournament_results := []
    meta_review_feedback := []
    iteration_number := 0 }

/-- Embeds `self.hypotheses[key] = value` on an insertion-ordered dict:
replace in place if the key is present, otherwise append at the end. -/
def dictInsert (k : String) (v : Hypothesis) :
    List (String × Hypothesis) → List (String × Hypothesis)
  | [] => [(k, v)]
  | (k', v') :: rest =>
      if k' = k then (k, v) :: rest else (k', v') :: dictInsert k v rest

/-- Embeds `self.hypotheses[key]` lookup on the dict. -/
def dictGet (k : String) : List (String × Hypothesis) → Option Hypothesis
  | [] => none
  | (k', v') :: rest => if k' = k then some v' else dictGet k rest

/-- Embeds `ContextMemory.add_hypothesis` (`app/models.py` lines 99–103):
`self.hypotheses[hypothesis.hypothesis_id] = hypothesis`, with the
database save being an external side effect.  There is no duplicate-id
check and no error path. -/
def ContextMemory.add_hypothesis (ctx : ContextMemory) (h : Hypothesis) :
    ContextMemory :=
  { ctx with hypotheses := dictInsert h.hypothesis_id h ctx.hypotheses }

/-- Embeds `ContextMemory.get_active_hypotheses`. -/
def ContextMemory.get_active_hypotheses (ctx : ContextMemory) : List Hypothesis :=
  (ctx.hypotheses.map Prod.snd).filter (fun h => h.is_active)

/-! ## `generate_unique_id` (`app/utils.py` lines 162–164)

The source is `f"{prefix}{random.randint(1000, 9999)}"`.  The random draw
is the value returned by `random.randint(1000, 9999)`, passed here as the
explicit argument `r`; `randint` guarantees `1000 ≤ r ≤ 9999` (both ends
inclusive).  The function consults no state other than the draw. -/

/-- Embeds `generate_unique_id`; `pre` is the `prefix` parameter and `r`
the value drawn by `random.randint(1000, 9999)`. -/
def generate_unique_id (pre : String) (r : Nat) : String :=
  pre ++ toString r

/-! ## `generate_visjs_data` (`app/utils.py` lines 168–199)

The adjacency graph is a dict mapping each node id to a list of
connection dicts.  A connection that is a dict with both a `similarity`
key holding a number and an `other_id` key is well formed; anything else
is skipped with a warning.  Nodes are emitted for every key of the graph;
edges only for well-formed connections whose similarity exceeds `0.2`.
The vis.js string rendering concatenates the node and edge records; the
embedding keeps the records structured (id and label of a node are both
the node id; an edge carries from-id, to-id and its similarity label). -/

/-- One entry of a connection list: either a well-formed connection dict
(`{"other_id": ..., "similarity": <number>}`) or an entry of any other
shape, which the source skips. -/
inductive Conn where
  | valid (other_id : String) (similarity : ℚ)
  | invalid
deriving DecidableEq, Repr

/-- Embeds the node loop of `generate_visjs_data`: one node per key of the
adjacency graph, regardless of its connections. -/
def visNodes (g : List (String × List Conn)) : List String :=
  g.map Prod.fst

/-- Embeds the edge loop of `generate_visjs_data`: a well-formed
connection contributes the edge `(node_id, other_id, similarity)` exactly
when `similarity > 0.2`; invalid connections are skipped. -/
def visEdges (g : List (String × List Conn)) : List (String × String × ℚ) :=
  g.flatMap (fun p =>
    p.2.filterMap (fun c =>
      match c with
      | Conn.valid oid s => if s > 1/5 then some (p.1, oid, s) else none
      | Conn.invalid => none))

/-- Embeds `generate_visjs_data`: the node list and edge list backing
`nodes_str` and `edges_str`. -/
def generate_visjs_data (g : List (String × List Conn)) :
    List String × List (String × String × ℚ) :=
  (visNodes g, visEdges g)

/-! ## `similarity_score` (`app/utils.py` lines 221–248)

The sentence-transformer model is the embedding collaborator; its
`encode` method is abstracted as a function `encode : String → List ℝ`
(deterministic for identical input, as the specification's collaborator
contract requires).  The code short-circuits to `0.0` when either text is
falsy (an empty string), otherwise computes the cosine similarity of the
two embeddings and clamps it into `[0.0, 1.0]` with `np.clip`. -/

/-- Dot product of two real vectors (the numerator of cosine similarity,
and with itself the squared norm). -/
def dotList : List ℝ → List ℝ → ℝ
  | x :: xs, y :: ys => x * y + dotList xs ys
  | _, _ => 0

/-- Cosine similarity of two embedding vectors:
`dot(a,b) / (‖a‖ * ‖b‖)`. -/
noncomputable def cosineSim (a b : List ℝ) : ℝ :=
  dotList a b / (Real.sqrt (dotList a a) * Real.sqrt (dotList b b))

/-- Embeds `similarity_score(textA, textB)`: empty input short-circuits to
`0.0` before the model is touched; otherwise the clamped cosine
similarity of the two encodings.  `np.clip(x, 0.0, 1.0)` is
`min (max x 0) 1`. -/
noncomputable def similarity_score (encode : String → List ℝ)
    (textA textB : String) : ℝ :=
  if textA.isEmpty || textB.isEmpty then 0
  else min (max (cosineSim (encode textA) (encode textB)) 0) 1

/-! ## Elo tournament update

Modelled from the spec: the pairwise tournament update of
`app/agents.py` (not among the available sources).  Per §4.3,
`expected_A = 1 / (1 + 10^((rating_B - rating_A) / 400))` and
`rating_A' = rating_A + K * (actual_A - expected_A)`, with `actual_A = 1`
if A won else `0`, and the symmetric update applied to B. -/

/-- Modelled from the spec: the canonical Elo expected score of a player
rated `ra` against a player rated `rb`. -/
noncomputable def expected_score (ra rb : ℝ) : ℝ :=
  1 / (1 + (10 : ℝ) ^ ((rb - ra) / 400))

/-- Modelled from the spec: one side's post-match rating. -/
noncomputable def elo_after (r k actual expected : ℝ) : ℝ :=
  r + k * (actual - expected)

/-- Modelled from the spec: a single tournament match between ratings
`r1` and `r2` with K-factor `k`.  Returns
`(expected score of side 1, new rating 1, new rating 2)`. -/
noncomputable def run_single_match (r1 r2 k : ℝ) (h1_wins : Bool) :
    ℝ × ℝ × ℝ :=
  let e1 := expected_score r1 r2
  let e2 := expected_score r2 r1
  let a1 : ℝ := if h1_wins then 1 else 0
  let a2 : ℝ := if h1_wins then 0 else 1
  (e1, elo_after r1 k a1 e1, elo_after r2 k a2 e2)

/-! ## arXiv reference extraction

Modelled from the spec (§4.6) and from the inline copy of the patterns in
`tests/test_agents.py::test_reference_extraction_patterns`; the extraction
logic itself lives in `app/agents.py`, which is not among the available
sources.  The patterns, applied with `re.findall` and `re.IGNORECASE` in
priority order, are:
  1. `arXiv:(\d{4}\.\d{4,5})`   — prefixed modern format,
  2. `(\d{4}\.\d{4,5})`          — bare modern format,
  3. `arXiv:([a-z-]+/\d{7})`     — legacy format.
Every match whose capture contains `/` (the legacy format) is skipped;
the remaining captures are concatenated in pattern order and deduplicated
with `list(dict.fromkeys(...))`, keeping the first occurrence of each. -/

/-- Lowercased character list of the literal `arXiv:` prefix. -/
def arxivPrefixChars : List Char := ['a', 'r', 'x', 'i', 'v', ':']

/-- Case-insensitive literal match: consume the pattern `ps` (given in
lowercase) from the front of the input, comparing lowercased characters;
returns the remaining input on success. -/
def matchCI : List Char → List Char → Option (List Char)
  | [], cs => some cs
  | _ :: _, [] => none
  | p :: ps, c :: cs => if c.toLower = p then matchCI ps cs else none

/-- Matcher for the modern-id pattern `\d{4}\.\d{4,5}` at the current
position: four digits, a literal dot, then greedily four or five digits.
Returns the capture and the input remaining after the matched text. -/
def matchModern : List Char → Option (String × List Char)
  | a :: b :: c :: d :: p :: rest =>
      if a.isDigit && b.isDigit && c.isDigit && d.isDigit && p = '.' then
        let ds := rest.takeWhile Char.isDigit
        if 4 ≤ ds.length then
          let k := min ds.length 5
          some (String.mk ([a, b, c, d, '.'] ++ ds.take k), rest.drop k)
        else none
      else none
  | _ => none

/-- Matcher for pattern 1, `arXiv:(\d{4}\.\d{4,5})` with `IGNORECASE`:
the prefix followed by a modern id; the capture group is only the id. -/
def matchPrefixed (cs : List Char) : Option (String × List Char) :=
  match matchCI arxivPrefixChars cs with
  | some rest => matchModern rest
  | none => none

/-- Character class `[a-z-]` under `IGNORECASE`: an ASCII letter of either
case, or a hyphen. -/
def isLegacyClassChar (c : Char) : Bool := c.isAlpha || c = '-'

/-- Matcher for pattern 3, `arXiv:([a-z-]+/\d{7})` with `IGNORECASE`: the
prefix, a nonempty category name, a slash, then exactly seven digits.
The capture group contains the slash. -/
def matchLegacy (cs : List Char) : Option (String × List Char) :=
  match matchCI arxivPrefixChars cs with
  | none => none
  | some rest =>
      let ls := rest.takeWhile isLegacyClassChar
      if ls.isEmpty then none
      else
        match rest.drop ls.length with
        | '/' :: r2 =>
            if 7 ≤ (r2.takeWhile Char.isDigit).length then
              some (String.mk (ls ++ '/' :: r2.take 7), r2.drop 7)
            else none
        | _ => none

/-- Embeds the `re.findall` scan: try the matcher at each position, left
to right; on a match emit the capture and resume after the matched text,
otherwise advance one character.  The fuel argument bounds the recursion
and is instantiated with the input length; a match always consumes at
least one character, so that much fuel never runs out. -/
def findAll (m : List Char → Option (String × List Char)) :
    Nat → List Char → List String
  | 0, _ => []
  | _ + 1, [] => []
  | fuel + 1, c :: cs =>
      match m (c :: cs) with
      | some (cap, rest) => cap :: findAll m fuel rest
      | none => findAll m fuel cs

/-- Embeds the test `'/' in match` check used to skip legacy captures. -/
def hasSlash (s : String) : Bool := s.data.any (fun c => c = '/')

/-- Embeds `list(dict.fromkeys(found_ids))`: deduplicate keeping the
first occurrence of each element, preserving order; `seen` accumulates
the elements already emitted. -/
def dedupFirstAux (seen : List String) : List String → List String
  | [] => []
  | x :: xs =>
      if x ∈ seen then dedupFirstAux seen xs
      else x :: dedupFirstAux (x :: seen) xs

/-- Modelled from the spec: the reference-extraction algorithm of §4.6 as
pinned by `tests/test_agents.py` — findall with the three patterns in
priority order, skip captures containing a slash, deduplicate keeping
first-seen order. -/
def extract_arxiv_ids (text : String) : List String :=
  let cs := text.data
  let found :=
    findAll matchPrefixed cs.length cs ++
    findAll matchModern cs.length cs ++
    findAll matchLegacy cs.length cs
  dedupFirstAux [] (found.filter (fun s => !(hasSlash s)))

/-- Shape of a modern-format arXiv identifier: four digits, a dot, then
four or five digits (`\d{4}\.\d{4,5}` anchored to the whole string). -/
def isModernId (s : String) : Bool :=
  match s.data with
  | a :: b :: c :: d :: p :: rest =>
      a.isDigit && b.isDigit && c.isDigit && d.isDigit && p = '.' &&
      rest.all Char.isDigit && (rest.length = 4 || rest.length = 5)
  | _ => false

/-! ## Population-store lemmas -/

/-- Inserting a key makes lookup of that key return the new value. -/
theorem dictGet_dictInsert_self (k : String) (v : Hypothesis)
    (l : List (String × Hypothesis)) :
    dictGet k (dictInsert k v l) = some v := by
  induction l with
  | nil => simp [dictInsert, dictGet]
  | cons p rest ih =>
      obtain ⟨k', v'⟩ := p
      by_cases h : k' = k
      · simp [dictInsert, dictGet, h]
      · simp [dictInsert, dictGet, h, ih]

/-- Inserting the same key/value twice equals inserting it once. -/
theorem dictInsert_idem (k : String) (v : Hypothesis)
    (l : List (String × Hypothesis)) :
    dictInsert k v (dictInsert k v l) = dictInsert k v l := by
  induction l with
  | nil => simp [dictInsert]
  | cons p rest ih =>
      obtain ⟨k', v'⟩ := p
      by_cases h : k' = k
      · simp [dictInsert, h]
      · simp [dictInsert, h, ih]

/-- Inserting one key leaves lookups of every other key unchanged. -/
theorem dictGet_dictInsert_other (k k' : String) (v : Hypothesis)
    (l : List (String × Hypothesis)) (hne : k' ≠ k) :
    dictGet k' (dictInsert k v l) = dictGet k' l := by
  induction l with
  | nil => simp [dictInsert, dictGet, Ne.symm hne]
  | cons p rest ih =>
      obtain ⟨k'', v''⟩ := p
      by_cases h : k'' = k
      · subst h
        simp [dictInsert, dictGet, hne, Ne.symm hne]
      · simp [dictInsert, dictGet, h, ih]

/-- Claim C6: upsert semantics of `add_hypothesis` — after the call the
store maps the hypothesis id to the new hypothesis, adding twice equals
adding once, and every other entry of the map is unchanged. -/
theorem add_hypothesis_upsert_idempotent :
    ∀ (ctx : ContextMemory) (h : Hypothesis),
      dictGet h.hypothesis_id (ctx.add_hypothesis h).hypotheses = some h ∧
      (ctx.add_hypothesis h).add_hypothesis h = ctx.add_hypothesis h ∧
      ∀ k : String, k ≠ h.hypothesis_id →
        dictGet k (ctx.add_hypothesis h).hypotheses = dictGet k ctx.hypotheses := by
  intro ctx h
  refine ⟨dictGet_dictInsert_self _ _ _, ?_, ?_⟩
  · simp [ContextMemory.add_hypothesis, dictInsert_idem]
  · intro k hk
    exact dictGet_dictInsert_other _ _ _ _ hk

/-- Witness for claim C6 at a concrete store, hypothesis and other key. -/
theorem add_hypothesis_upsert_idempotent_witness :
    dictGet "H2"
        (ContextMemory.empty.add_hypothesis
          (Hypothesis.make "H1" "a title" "a text")).hypotheses
      = dictGet "H2" ContextMemory.empty.hypotheses :=
  (add_hypothesis_upsert_idempotent ContextMemory.empty
    (Hypothesis.make "H1" "a title" "a text")).2.2 "H2" (by decide)

/-- Claim C5 counterexample: adding a hypothesis whose id already exists
is silently absorbed — `add_hypothesis` is total (no error is raised) and
the store is changed: the entry for the id is replaced by the newly added
hypothesis, so the claimed `DataIntegrityError` with an unchanged store
does not happen. -/
theorem add_hypothesis_duplicate_silently_absorbed :
    dictGet "H1"
        ((ContextMemory.empty.add_hypothesis
            (Hypothesis.make "H1" "first title" "first text")).add_hypothesis
          (Hypothesis.make "H1" "second title" "second text")).hypotheses
      = some (Hypothesis.make "H1" "second title" "second text") ∧
    (ContextMemory.empty.add_hypothesis
        (Hypothesis.make "H1" "first title" "first text")).add_hypothesis
      (Hypothesis.make "H1" "second title" "second text")
      ≠ ContextMemory.empty.add_hypothesis
          (Hypothesis.make "H1" "first title" "first text") := by
  constructor
  · decide
  · decide

/-- Claim C5 (amended): adding a hypothesis whose id already exists in the
population raises no error and is not ignored — the existing entry is
overwritten by the new hypothesis (idempotent upsert). -/
theorem add_hypothesis_duplicate_overwrites :
    ∀ (ctx : ContextMemory) (h : Hypothesis),
      (dictGet h.hypothesis_id ctx.hypotheses).isSome = true →
      dictGet h.hypothesis_id (ctx.add_hypothesis h).hypotheses = some h := by
  intro ctx h _
  exact dictGet_dictInsert_self _ _ _

/-- Witness for claim C5's amended theorem at a concrete duplicate id. -/
theorem add_hypothesis_duplicate_overwrites_witness :
    dictGet "H1"
        ((ContextMemory.empty.add_hypothesis
            (Hypothesis.make "H1" "first title" "first text")).add_hypothesis
          (Hypothesis.make "H1" "second title" "second text")).hypotheses
      = some (Hypothesis.make "H1" "second title" "second text") :=
  add_hypothesis_duplicate_overwrites
    (ContextMemory.empty.add_hypothesis
      (Hypothesis.make "H1" "first title" "first text"))
    (Hypothesis.make "H1" "second title" "second text") (by decide)

/-- Claim C4 counterexample: a `ResearchGoal` with `top_k_hypotheses = 1`
(< 2) is not rejected — the constructor returns the goal with the invalid
value stored, so no `ConfigurationError` precedes any cycle stage. -/
theorem research_goal_accepts_top_k_one :
    ResearchGoal.make codeDefaults "goal" none none none none none none (some 1)
      = Except.ok
          { description := "goal"
            constraints := []
            llm_model := "google/gemini-flash-1.5"
            num_hypotheses := 3
            generation_temperature := 7/10
            reflection_temperature := 1/2
            elo_k_factor := 32
            top_k_hypotheses := 1
            literature_context := [] } := rfl

/-- Claim C4 (amended): `ResearchGoal` performs no parameter validation —
for every configuration and every `top_k_hypotheses < 2`, construction
succeeds and the invalid value is stored unchanged, so a session can
reach its first stage with `top_k_hypotheses < 2`. -/
theorem research_goal_no_validation :
    ∀ (cfg : ConfigDefaults) (d : String) (tk : Int), tk < 2 →
      ∃ r : ResearchGoal,
        ResearchGoal.make cfg d none none none none none none (some tk)
          = Except.ok r ∧ r.top_k_hypotheses = tk := by
  intro cfg d tk _
  exact ⟨_, rfl, rfl⟩

/-- Witness for claim C4's amended theorem at `top_k_hypotheses = 1`. -/
theorem research_goal_no_validation_witness :
    ∃ r : ResearchGoal,
      ResearchGoal.make codeDefaults "goal" none none none none none none (some 1)
        = Except.ok r ∧ r.top_k_hypotheses = 1 :=
  research_goal_no_validation codeDefaults "goal" 1 (by decide)

/-- Claim C8: every newly constructed `Hypothesis` starts with
`elo_score = 1200.0`, `is_active = true`, both reviews unset, and empty
review-comment, reference and parent lists. -/
theorem hypothesis_fresh_defaults :
    ∀ hid htitle htext : String,
      (Hypothesis.make hid htitle htext).elo_score = 1200 ∧
      (Hypothesis.make hid htitle htext).is_active = true ∧
      (Hypothesis.make hid htitle htext).novelty_review = none ∧
      (Hypothesis.make hid htitle htext).feasibility_review = none ∧
      (Hypothesis.make hid htitle htext).review_comments = [] ∧
      (Hypothesis.make hid htitle htext).references = [] ∧
      (Hypothesis.make hid htitle htext).parent_ids = [] := by
  intro hid htitle htext
  exact ⟨rfl, rfl, rfl, rfl, rfl, rfl, rfl⟩

/-- Claim C10: every identifier is the prefix followed by the decimal
digits of the drawn integer, which `randint(1000, 9999)` keeps in
`[1000, 9999]`; hence at most `9000` distinct identifiers exist per
prefix, and since the function consults no record of issued ids, some
sequences of draws make two separate calls return the same identifier. -/
theorem generate_unique_id_bounded :
    (∀ (pre : String) (r : Nat), 1000 ≤ r → r ≤ 9999 →
      ∃ n : Nat, 1000 ≤ n ∧ n ≤ 9999 ∧
        generate_unique_id pre r = pre ++ toString n) ∧
    (∀ pre : String,
      ((Finset.Icc 1000 9999).image (generate_unique_id pre)).card ≤ 9000) ∧
    (∃ r1 r2 : Nat, 1000 ≤ r1 ∧ r1 ≤ 9999 ∧ 1000 ≤ r2 ∧ r2 ≤ 9999 ∧
      generate_unique_id "H" r1 = generate_unique_id "H" r2) := by
  refine ⟨?_, ?_, ?_⟩
  · intro pre r h1 h2
    exact ⟨r, h1, h2, rfl⟩
  · intro pre
    refine le_trans Finset.card_image_le ?_
    simp [Nat.card_Icc]
  · exact ⟨1234, 1234, by norm_num, by norm_num, by norm_num, by norm_num, rfl⟩

/-- Witness for claim C10 at the concrete draw 1234. -/
theorem generate_unique_id_bounded_witness :
    ∃ n : Nat, 1000 ≤ n ∧ n ≤ 9999 ∧
      generate_unique_id "H" 1234 = "H" ++ toString n :=
  generate_unique_id_bounded.1 "H" 1234 (by norm_num) (by norm_num)

/-- Claim C9 counterexample: a well-formed connection whose similarity is
exactly the 0.2 threshold is dropped from the rendering (the source
comparison is strict), while the claim says every connection with
similarity at or above 0.2 appears as an edge. -/
theorem vis_edge_at_threshold_dropped :
    visEdges [("A", [Conn.valid "B" (1/5)])] = [] ∧
    visNodes [("A", [Conn.valid "B" (1/5)])] = ["A"] := by
  constructor
  · simp [visEdges]
  · simp [visNodes]

/-- Claim C9 (amended): the rendering keeps exactly the well-formed
connections whose similarity is strictly above 0.2 (edges with similarity
equal to or below 0.2 are dropped), and a node is emitted for every
hypothesis id of the adjacency structure regardless of its edges. -/
theorem vis_edges_strict_threshold :
    ∀ g : List (String × List Conn),
      (∀ (nid oid : String) (s : ℚ),
        (nid, oid, s) ∈ visEdges g ↔
          ∃ conns, (nid, conns) ∈ g ∧ Conn.valid oid s ∈ conns ∧ 1/5 < s) ∧
      (∀ (nid : String) (conns : List Conn), (nid, conns) ∈ g →
        nid ∈ visNodes g) := by
  intro g
  constructor
  · intro nid oid s
    simp only [visEdges, List.mem_flatMap, List.mem_filterMap]
    constructor
    · rintro ⟨⟨nid', conns⟩, hmem, c, hc, hsome⟩
      cases c with
      | valid oid' s' =>
          dsimp only at hsome
          by_cases hlt : s' > 1/5
          · rw [if_pos hlt] at hsome
            obtain ⟨h1, h2, h3⟩ : nid' = nid ∧ oid' = oid ∧ s' = s := by
              simpa using hsome
            subst h1; subst h2; subst h3
            exact ⟨conns, hmem, hc, hlt⟩
          · rw [if_neg hlt] at hsome
            exact absurd hsome (by simp)
      | invalid => simp at hsome
    · rintro ⟨conns, hmem, hc, hlt⟩
      exact ⟨(nid, conns), hmem, Conn.valid oid s, hc, by
        dsimp only
        rw [if_pos hlt]⟩
  · intro nid conns hmem
    exact List.mem_map.mpr ⟨(nid, conns), hmem, rfl⟩

/-- Witness for claim C9's amended theorem: on a concrete one-node graph
the node is emitted even though its only connection is dropped. -/
theorem vis_edges_strict_threshold_witness :
    "A" ∈ visNodes [("A", [Conn.valid "B" (1/5)])] :=
  (vis_edges_strict_threshold [("A", [Conn.valid "B" (1/5)])]).2 "A"
    [Conn.valid "B" (1/5)] (List.mem_singleton.mpr rfl)

/-! ## Similarity and Elo theorems -/

/-- The dot product is symmetric in its two vector arguments. -/
theorem dotList_comm : ∀ a b : List ℝ, dotList a b = dotList b a := by
  intro a
  induction a with
  | nil =>
      intro b
      cases b <;> simp [dotList]
  | cons x xs ih =>
      intro b
      cases b with
      | nil => simp [dotList]
      | cons y ys => simp [dotList, ih ys, mul_comm]

/-- Cosine similarity is symmetric. -/
theorem cosineSim_comm (a b : List ℝ) : cosineSim a b = cosineSim b a := by
  unfold cosineSim
  rw [dotList_comm a b, mul_comm]

/-- Claim C3: `similarity_score` always lies in `[0.0, 1.0]`, and when
either text is empty it returns `0.0` without invoking the embedding
collaborator — the result is then independent of the `encode` function,
which is never applied on the degenerate branch. -/
theorem similarity_score_contract :
    ∀ (encode : String → List ℝ) (textA textB : String),
      (0 ≤ similarity_score encode textA textB ∧
        similarity_score encode textA textB ≤ 1) ∧
      ((textA.isEmpty || textB.isEmpty) = true →
        similarity_score encode textA textB = 0 ∧
        ∀ encode2 : String → List ℝ,
          similarity_score encode2 textA textB =
            similarity_score encode textA textB) := by
  intro encode textA textB
  constructor
  · unfold similarity_score
    by_cases h : (textA.isEmpty || textB.isEmpty) = true
    · rw [if_pos h]
      exact ⟨le_refl 0, zero_le_one⟩
    · rw [if_neg h]
      exact ⟨le_min (le_max_right _ _) zero_le_one, min_le_right _ _⟩
  · intro h
    constructor
    · unfold similarity_score
      rw [if_pos h]
    · intro encode2
      unfold similarity_score
      rw [if_pos h, if_pos h]

/-- Witness for claim C3: with an empty first text the score is `0`. -/
theorem similarity_score_contract_witness :
    similarity_score (fun _ => ([] : List ℝ)) "" "x" = 0 :=
  ((similarity_score_contract (fun _ => ([] : List ℝ)) "" "x").2 (by decide)).1

/-- Claim C7: `similarity_score` is symmetric in its two texts for every
(deterministic) embedding collaborator, so every adjacency entry built
from it satisfies `similarity(i,j) = similarity(j,i)`. -/
theorem similarity_score_symm :
    ∀ (encode : String → List ℝ) (textA textB : String),
      similarity_score encode textA textB = similarity_score encode textB textA := by
  intro encode textA textB
  unfold similarity_score
  rw [Bool.or_comm, cosineSim_comm]

/-- Claim C1: starting from two fresh hypotheses, both at the default
`elo_score = 1200.0`, a single tournament match with K = 32 won by the
first yields expected score `0.5` for the winner, new winner rating
`1216.0` and new loser rating `1184.0`. -/
theorem elo_single_match_from_1200 :
    run_single_match
        (((Hypothesis.make "H1" "Hypothesis one" "text one").elo_score : ℝ))
        (((Hypothesis.make "H2" "Hypothesis two" "text two").elo_score : ℝ))
        32 true
      = (1/2, 1216, 1184) := by
  have e1 : ((Hypothesis.make "H1" "Hypothesis one" "text one").elo_score : ℝ) = 1200 := by
    norm_num [Hypothesis.make]
  have e2 : ((Hypothesis.make "H2" "Hypothesis two" "text two").elo_score : ℝ) = 1200 := by
    norm_num [Hypothesis.make]
  have hexp : expected_score (1200 : ℝ) 1200 = 1/2 := by
    unfold expected_score
    rw [show ((1200 : ℝ) - 1200) / 400 = 0 by norm_num, Real.rpow_zero]
    norm_num
  rw [e1, e2]
  unfold run_single_match
  rw [hexp]
  unfold elo_after
  norm_num

/-! ## Reference-extraction lemmas -/

/-- Every capture emitted by a `findAll` scan satisfies any property that
all captures of the underlying matcher satisfy. -/
theorem findAll_forall {P : String → Prop}
    (m : List Char → Option (String × List Char))
    (hm : ∀ l cap rest, m l = some (cap, rest) → P cap) :
    ∀ (fuel : Nat) (cs : List Char), ∀ cap ∈ findAll m fuel cs, P cap := by
  intro fuel
  induction fuel with
  | zero =>
      intro cs cap hcap
      simp [findAll] at hcap
  | succ n ih =>
      intro cs cap hcap
      cases cs with
      | nil => simp [findAll] at hcap
      | cons c cs' =>
          cases hmatch : m (c :: cs') with
          | none =>
              simp only [findAll, hmatch] at hcap
              exact ih cs' cap hcap
          | some pr =>
              obtain ⟨capm, restm⟩ := pr
              simp only [findAll, hmatch] at hcap
              rcases List.mem_cons.mp hcap with rfl | hcap'
              · exact hm _ _ _ hmatch
              · exact ih restm cap hcap'

/-- A capture of the modern-id matcher has the modern-identifier shape. -/
theorem matchModern_shape :
    ∀ (l : List Char) (cap : String) (rest : List Char),
      matchModern l = some (cap, rest) → isModernId cap = true := by
  intro l cap rest h
  match l with
  | [] => simp [matchModern] at h
  | [a] => simp [matchModern] at h
  | [a, b] => simp [matchModern] at h
  | [a, b, c] => simp [matchModern] at h
  | [a, b, c, d] => simp [matchModern] at h
  | a :: b :: c :: d :: p :: tail =>
      simp only [matchModern] at h
      split_ifs at h with h1 h2
      · rw [Option.some.injEq, Prod.mk.injEq] at h
        obtain ⟨hcap, hrest⟩ := h
        subst hcap
        simp only [Bool.and_eq_true, decide_eq_true_eq] at h1
        obtain ⟨⟨⟨⟨ha, hb⟩, hc⟩, hd⟩, hp⟩ := h1
        simp only [isModernId, List.cons_append, List.nil_append]
        simp only [Bool.and_eq_true, decide_eq_true_eq, Bool.or_eq_true,
          List.all_eq_true]
        refine ⟨⟨⟨⟨⟨⟨ha, hb⟩, hc⟩, hd⟩, trivial⟩, ?_⟩, ?_⟩
        · intro x hx
          exact List.mem_takeWhile_imp (List.mem_of_mem_take hx)
        · rw [List.length_take]
          omega

/-- A capture of the prefixed-modern matcher has the modern shape. -/
theorem matchPrefixed_shape :
    ∀ (l : List Char) (cap : String) (rest : List Char),
      matchPrefixed l = some (cap, rest) → isModernId cap = true := by
  intro l cap rest h
  unfold matchPrefixed at h
  cases hci : matchCI arxivPrefixChars l with
  | none => rw [hci] at h; exact absurd h (by simp)
  | some r => rw [hci] at h; exact matchModern_shape r cap rest h

/-- A capture of the legacy matcher always contains a slash. -/
theorem matchLegacy_slash :
    ∀ (l : List Char) (cap : String) (rest : List Char),
      matchLegacy l = some (cap, rest) → hasSlash cap = true := by
  intro l cap rest h
  simp only [matchLegacy] at h
  split at h
  · simp at h
  · rename_i r heq
    by_cases he : (r.takeWhile isLegacyClassChar).isEmpty = true
    · rw [if_pos he] at h
      simp at h
    · rw [if_neg he] at h
      split at h
      · rename_i r2 heq2
        split_ifs at h with h7
        · rw [Option.some.injEq, Prod.mk.injEq] at h
          obtain ⟨hcap, hrest⟩ := h
          subst hcap
          simp [hasSlash, List.any_append]
      · simp at h

/-- Elements of a deduplicated list come from the input list. -/
theorem dedupFirstAux_subset :
    ∀ (l seen : List String) (x : String),
      x ∈ dedupFirstAux seen l → x ∈ l := by
  intro l
  induction l with
  | nil =>
      intro seen x hx
      simp [dedupFirstAux] at hx
  | cons y ys ih =>
      intro seen x hx
      simp only [dedupFirstAux] at hx
      by_cases hy : y ∈ seen
      · rw [if_pos hy] at hx
        exact List.mem_cons_of_mem _ (ih seen x hx)
      · rw [if_neg hy] at hx
        rcases List.mem_cons.mp hx with rfl | hx'
        · exact List.mem_cons_self _ _
        · exact List.mem_cons_of_mem _ (ih _ x hx')

/-- No element of a deduplicated list was already in the seen set. -/
theorem dedupFirstAux_not_mem_seen :
    ∀ (l seen : List String) (x : String),
      x ∈ dedupFirstAux seen l → x ∉ seen := by
  intro l
  induction l with
  | nil =>
      intro seen x hx
      simp [dedupFirstAux] at hx
  | cons y ys ih =>
      intro seen x hx
      simp only [dedupFirstAux] at hx
      by_cases hy : y ∈ seen
      · rw [if_pos hy] at hx
        exact ih seen x hx
      · rw [if_neg hy] at hx
        rcases List.mem_cons.mp hx with rfl | hx'
        · exact hy
        · intro hmem
          exact ih (y :: seen) x hx' (List.mem_cons_of_mem _ hmem)

/-- Deduplication produces a list without duplicates. -/
theorem dedupFirstAux_nodup :
    ∀ (l seen : List String), (dedupFirstAux seen l).Nodup := by
  intro l
  induction l with
  | nil =>
      intro seen
      simp [dedupFirstAux]
  | cons y ys ih =>
      intro seen
      simp only [dedupFirstAux]
      by_cases hy : y ∈ seen
      · rw [if_pos hy]
        exact ih seen
      · rw [if_neg hy]
        rw [List.nodup_cons]
        refine ⟨?_, ih _⟩
        intro hmem
        exact dedupFirstAux_not_mem_seen ys (y :: seen) y hmem
          (List.mem_cons_self _ _)

/-- Claim C2: for every input text the extractor returns only
modern-format arXiv identifiers, without duplicates (first-seen order is
kept by the deduplication); legacy-format identifiers are excluded.  On
the spec's concrete examples, `"arXiv:2301.12345 and also 2301.12345"`
yields exactly `["2301.12345"]` and `"arXiv:cs/0701001"` yields none. -/
theorem extract_arxiv_ids_spec :
    (∀ text : String, ∀ s ∈ extract_arxiv_ids text, isModernId s = true) ∧
    (∀ text : String, (extract_arxiv_ids text).Nodup) ∧
    extract_arxiv_ids "arXiv:2301.12345 and also 2301.12345" = ["2301.12345"] ∧
    extract_arxiv_ids "arXiv:cs/0701001" = [] := by
  refine ⟨?_, ?_, by decide, by decide⟩
  · intro text s hs
    simp only [extract_arxiv_ids] at hs
    have hs' := dedupFirstAux_subset _ _ _ hs
    rw [List.mem_filter] at hs'
    obtain ⟨hmem, hslash⟩ := hs'
    rw [List.mem_append] at hmem
    rcases hmem with hmem | h3
    · rw [List.mem_append] at hmem
      rcases hmem with h1 | h2
      · exact findAll_forall matchPrefixed matchPrefixed_shape _ _ s h1
      · exact findAll_forall matchModern matchModern_shape _ _ s h2
    · have := findAll_forall matchLegacy matchLegacy_slash _ _ s h3
      rw [this] at hslash
      exact absurd hslash (by simp)
  · intro text
    simp only [extract_arxiv_ids]
    exact dedupFirstAux_nodup _ _

/-- Witness for claim C2: the identifier extracted from the dedup example
has the modern shape. -/
theorem extract_arxiv_ids_spec_witness : isModernId "2301.12345" = true :=
  extract_arxiv_ids_spec.1 "arXiv:2301.12345 and also 2301.12345"
    "2301.12345" (by decide)

end CoScientist
